import Mathlib

/-!
Shallow embedding of the evergreen-os device-agent (Go) and proofs about it.

Conventions used throughout:
* Go `error` values are abstracted as their message strings (`Err`).
* Host commands, the HTTP client and the wall clock are external collaborators;
  their outcomes enter the embedded functions as explicit parameters, so every
  embedded function is a pure function of its inputs.
* Go `map[string]string` literals are embedded as association lists in the
  textual order of the source literal.
-/

deriving instance DecidableEq for Except

namespace DeviceAgent

/-- Go `error` values, abstracted as their message strings. -/
abbrev Err := String

/-- Display location of a Go `time.Time`: `.UTC()` marks it as UTC. -/
inductive GoLoc where
  | utc
  | other
deriving DecidableEq

/-- Model of a Go `time.Time` instant as stored in events: the `UnixNano`
reading (nanoseconds since the epoch; the agent only runs after 1970, so a
`Nat`) plus the display location. -/
structure GoTime where
  unixNano : Nat
  loc : GoLoc
deriving DecidableEq

/-- pkg/api.Event. The `payload` field is `any` in Go, but every creation site
in the agent passes a `map[string]string`; it is embedded as an association
list in source-literal order. -/
structure Event where
  id : String
  type : String
  timestamp : GoTime
  payload : List (String × String)
deriving DecidableEq

/-- internal/events.NewEvent. The source reads the wall clock twice: once for
the id (`fmt.Sprintf` of `time.Now().UnixNano()`, i.e. the decimal rendering)
and once for the timestamp (`time.Now().UTC()`); the two readings are passed
here explicitly as `idNano` and `tsNano`. -/
def NewEvent (idNano tsNano : Nat) (eventType : String)
    (payload : List (String × String)) : Event :=
  { id := Nat.repr idNano
    type := eventType
    timestamp := { unixNano := tsNano, loc := GoLoc.utc }
    payload := payload }

/-- Event constructor abstracting `events.NewEvent` at the ambient wall clock:
the reconcilers call `events.NewEvent(type, payload)`, whose clock readings are
external, so the embedded reconcilers receive the constructor as a parameter. -/
abbrev MkEvent := String → List (String × String) → Event

/-- A constructor standing for `events.NewEvent` faithfully reports the event
type and payload it was given. -/
def MkEvent.Wellformed (mk : MkEvent) : Prop :=
  ∀ ty p, (mk ty p).type = ty ∧ (mk ty p).payload = p

/-- pkg/api.AppDefinition. -/
structure AppDefinition where
  id : String
  branch : String
  source : String
deriving DecidableEq

/-- pkg/api.AppsPolicy. -/
structure AppsPolicy where
  required : List AppDefinition
deriving DecidableEq

/-- pkg/api.UpdatePolicy. -/
structure UpdatePolicy where
  channel : String
  rebootRequired : Bool
  maintenance : List String
deriving DecidableEq

/-- pkg/api.Bookmark. -/
structure Bookmark where
  name : String
  url : String
deriving DecidableEq

/-- pkg/api.BrowserPolicy. -/
structure BrowserPolicy where
  homepage : String
  extensions : List String
  allowDevTools : Bool
  managedBookmarks : List Bookmark
deriving DecidableEq

/-- pkg/api.WiFiNetwork. -/
structure WiFiNetwork where
  ssid : String
  passphrase : String
  security : String
  hidden : Bool
  metered : Bool
  eap : List (String × String)
deriving DecidableEq

/-- pkg/api.VPNProfile. -/
structure VPNProfile where
  name : String
  serviceType : String
  data : List (String × String)
  secrets : List (String × String)
  autoConnect : Bool
deriving DecidableEq

/-- pkg/api.NetworkPolicy. -/
structure NetworkPolicy where
  wifi : List WiFiNetwork
  vpns : List VPNProfile
  vpnDNS : List String
deriving DecidableEq

/-- pkg/api.SecurityPolicy. -/
structure SecurityPolicy where
  selinuxEnforce : Bool
  sshEnabled : Bool
  usbGuard : Bool
  usbGuardRules : List String
  allowRootLogin : Bool
deriving DecidableEq

/-- pkg/api.PolicyDocument. -/
structure PolicyDocument where
  apps : AppsPolicy
  updates : UpdatePolicy
  browser : BrowserPolicy
  network : NetworkPolicy
  security : SecurityPolicy
deriving DecidableEq

/-- pkg/api.PolicyEnvelope. `deviceToken` is the optional rotated token
(`device_token` in the JSON encoding). -/
structure PolicyEnvelope where
  version : String
  signature : String
  policy : PolicyDocument
  deviceToken : String
deriving DecidableEq

/-! ### Character-list utilities

Go string functions used by the agent, embedded structurally over `List Char`
(the underlying data of a Lean `String`) so that they evaluate by kernel
reduction. All separators the agent splits on are single characters. -/

/-- strings.Split with a one-character separator. -/
def splitChar (sep : Char) : List Char → List (List Char)
  | [] => [[]]
  | x :: xs =>
    let r := splitChar sep xs
    if x = sep then [] :: r
    else
      match r with
      | [] => [[x]]
      | y :: ys => (x :: y) :: ys

/-- strings.SplitN with n = 2 and a one-character separator: the part before
the first separator and the remainder after it, if the separator occurs. -/
def splitFirst (sep : Char) : List Char → Option (List Char × List Char)
  | [] => none
  | x :: xs =>
    if x = sep then some ([], xs)
    else
      match splitFirst sep xs with
      | none => none
      | some (l, r) => some (x :: l, r)

/-- strings.Fields restricted to the space character (the maintenance-window
entries in scope use only spaces as separators). -/
def goFields (l : List Char) : List (List Char) :=
  (splitChar ' ' l).filter (· ≠ [])

/-- strings.TrimSpace. -/
def goTrim (l : List Char) : List Char :=
  ((l.dropWhile Char.isWhitespace).reverse.dropWhile Char.isWhitespace).reverse

/-- strings.ToLower, for the ASCII day names in scope. -/
def goToLower (l : List Char) : List Char := l.map Char.toLower

/-- strings.ReplaceAll with one-character pattern and replacement. -/
def goReplaceChar (pat rep : Char) (l : List Char) : List Char :=
  l.map (fun c => if c = pat then rep else c)

/-- strings.Contains for a one-character substring. -/
def goContainsChar (c : Char) (l : List Char) : Bool := l.contains c

/-- strings.Join with a one-character separator. -/
def goJoinChar (sep : Char) : List (List Char) → List Char
  | [] => []
  | [x] => x
  | x :: xs => x ++ sep :: goJoinChar sep xs

/-- strconv.Atoi: optional sign followed by at least one decimal digit.
Overflow of int64 is ignored (the inputs in scope are two-digit numbers). -/
def goAtoi (l : List Char) : Option Int :=
  let signed : Bool × List Char :=
    match l with
    | '-' :: rest => (true, rest)
    | '+' :: rest => (false, rest)
    | _ => (false, l)
  let digits := signed.2
  if digits = [] then none
  else if digits.all Char.isDigit then
    let n : Nat := digits.foldl (fun acc c => acc * 10 + (c.toNat - 48)) 0
    some (if signed.1 then -(n : Int) else (n : Int))
  else none

namespace Updates

/-- internal/updates: minutes constants. -/
def minutesPerDay : Nat := 24 * 60

def minutesPerWeek : Nat := 7 * minutesPerDay

/-- internal/updates.maintenanceWindowSegment: a half-open
`[start minute of week, end minute of week)` pair. -/
structure maintenanceWindowSegment where
  start : Nat
  fin : Nat
deriving DecidableEq

/-- The slice of a Go `time.Time` consumed by the window scheduler after
truncation to the minute: `Weekday()` (0 = Sunday), `Hour()`, `Minute()`. -/
structure WeekTime where
  weekday : Nat
  hour : Nat
  minute : Nat
deriving DecidableEq

/-- A `WeekTime` whose fields are in range, as every value produced by the Go
time package is. -/
def WeekTime.Valid (t : WeekTime) : Prop :=
  t.weekday < 7 ∧ t.hour < 24 ∧ t.minute < 60

instance (t : WeekTime) : Decidable t.Valid := by
  unfold WeekTime.Valid; infer_instance

/-- internal/updates.minuteOfWeek (truncation to the minute drops only
seconds, which the model does not carry). -/
def minuteOfWeek (t : WeekTime) : Nat :=
  t.weekday * minutesPerDay + t.hour * 60 + t.minute

/-- internal/updates.parseClock: `HH:MM` to a duration in nanoseconds. -/
def parseClock (value : List Char) : Except Err Nat :=
  match splitChar ':' value with
  | [h, m] =>
    match goAtoi h with
    | none => .error ("invalid hour " ++ h.asString)
    | some hour =>
      if hour < 0 || hour > 23 then .error ("invalid hour " ++ h.asString)
      else
        match goAtoi m with
        | none => .error ("invalid minute " ++ m.asString)
        | some minute =>
          if minute < 0 || minute > 59 then .error ("invalid minute " ++ m.asString)
          else .ok ((hour.toNat * 3600 + minute.toNat * 60) * 1000000000)
  | _ => .error ("invalid time value " ++ value.asString)

/-- internal/updates.parseTimeRange: `HH:MM-HH:MM`. -/
def parseTimeRange (value : List Char) : Except Err (Nat × Nat) :=
  match splitChar '-' value with
  | [s, e] =>
    match parseClock s with
    | .error err => .error err
    | .ok start =>
      match parseClock e with
      | .error err => .error err
      | .ok fin => .ok (start, fin)
  | _ => .error ("invalid time range " ++ value.asString)

/-- internal/updates.weekdayLookup (keys already lower-cased). -/
def weekdayLookup (s : List Char) : Option Nat :=
  match s.asString with
  | "sun" => some 0
  | "sunday" => some 0
  | "mon" => some 1
  | "monday" => some 1
  | "tue" => some 2
  | "tues" => some 2
  | "tuesday" => some 2
  | "wed" => some 3
  | "weds" => some 3
  | "wednesday" => some 3
  | "thu" => some 4
  | "thur" => some 4
  | "thurs" => some 4
  | "thursday" => some 4
  | "fri" => some 5
  | "friday" => some 5
  | "sat" => some 6
  | "saturday" => some 6
  | _ => none

/-- internal/updates.parseWeekday. -/
def parseWeekday (token : List Char) : Except Err Nat :=
  match weekdayLookup (goToLower token) with
  | some d => .ok d
  | none => .error ("invalid weekday " ++ token.asString)

/-- The day-range loop body of internal/updates.parseDays: walk
`(start + i) % 7` for `i = 0..6`, keeping days up to and including the first
hit of `fin` (the source appends the day and then breaks on equality). -/
def takeUntilIncl (fin : Nat) : List Nat → List Nat
  | [] => []
  | x :: xs => if x = fin then [x] else x :: takeUntilIncl fin xs

/-- Days visited by the range loop from `s` to `fin`. -/
def dayRangeList (s fin : Nat) : List Nat :=
  takeUntilIncl fin ((List.range 7).map (fun i => (s + i) % 7))

/-- Deduplication against the `seen` set shared across all tokens of one
internal/updates.parseDays call, preserving first-occurrence order. -/
def addDay (st : List Nat × List Nat) (d : Nat) : List Nat × List Nat :=
  if st.1.contains d then st else (d :: st.1, st.2 ++ [d])

/-- Token loop of internal/updates.parseDays. -/
def parseDaysTokens : List (List Char) → (List Nat × List Nat) → Except Err (List Nat)
  | [], st => .ok st.2
  | token :: rest, st =>
    let tok := goTrim token
    if tok = [] then parseDaysTokens rest st
    else if goContainsChar '-' tok then
      match splitFirst '-' tok with
      | none => .error ("invalid day range " ++ tok.asString)
      | some (lo, hi) =>
        match parseWeekday lo with
        | .error e => .error e
        | .ok s =>
          match parseWeekday hi with
          | .error e => .error e
          | .ok fin => parseDaysTokens rest ((dayRangeList s fin).foldl addDay st)
    else
      match parseWeekday tok with
      | .error e => .error e
      | .ok d => parseDaysTokens rest (addDay st d)

/-- internal/updates.parseDays: `""` or `*` means every day (empty list);
spaces are normalised to commas before splitting. -/
def parseDays (value : List Char) : Except Err (List Nat) :=
  let trimmed := goTrim value
  if trimmed = [] || trimmed = ['*'] then .ok []
  else parseDaysTokens (splitChar ',' (goReplaceChar ' ' ',' trimmed)) ([], [])

/-- internal/updates.buildSegments. Durations are converted back to minutes;
an empty day list means all seven days Sunday through Saturday; equal start
and end yield a full-day window; end before start splits at midnight into two
segments on consecutive days. -/
def buildSegments (days : List Nat) (startNanos finNanos : Nat) :
    List maintenanceWindowSegment :=
  let minutesStart := startNanos / 60000000000
  let minutesEnd := finNanos / 60000000000
  let effDays := if days = [] then [0, 1, 2, 3, 4, 5, 6] else days
  effDays.foldl
    (fun segments day =>
      let base := day * minutesPerDay
      if minutesStart = minutesEnd then
        segments ++ [⟨base, base + minutesPerDay⟩]
      else if minutesStart < minutesEnd then
        segments ++ [⟨base + minutesStart, base + minutesEnd⟩]
      else
        let nextDay := (day + 1) % 7
        segments ++ [⟨base + minutesStart, base + minutesPerDay⟩,
          ⟨nextDay * minutesPerDay, nextDay * minutesPerDay + minutesEnd⟩])
    []

/-- internal/updates.parseMaintenanceWindow: `[DAYSPEC] HH:MM-HH:MM`. The
last whitespace-separated field is the time range; any fields before it are
re-joined with spaces and parsed as the day expression. -/
def parseMaintenanceWindow (entry : List Char) : Except Err (List maintenanceWindowSegment) :=
  let parts := goFields entry
  match parts.getLast? with
  | none => .error "maintenance window entry empty"
  | some timePart =>
    match parseTimeRange timePart with
    | .error e => .error ("parse maintenance window " ++ entry.asString ++ ": " ++ e)
    | .ok (start, fin) =>
      if parts.length > 1 then
        match parseDays (goJoinChar ' ' parts.dropLast) with
        | .error e => .error ("parse maintenance window " ++ entry.asString ++ ": " ++ e)
        | .ok days => .ok (buildSegments days start fin)
      else .ok (buildSegments [] start fin)

/-- internal/updates.parseMaintenanceWindows: blank entries are skipped, the
segments of the rest are concatenated, the first parse error aborts. -/
def parseMaintenanceWindows (entries : List String) : Except Err (List maintenanceWindowSegment) :=
  entries.foldl
    (fun acc entry =>
      match acc with
      | .error e => .error e
      | .ok segments =>
        let trimmed := goTrim entry.data
        if trimmed = [] then .ok segments
        else
          match parseMaintenanceWindow trimmed with
          | .error e => .error e
          | .ok parsed => .ok (segments ++ parsed))
    (.ok [])

/-- internal/updates.maintenanceAllowsNow: an empty segment list allows any
instant; otherwise the current minute of week must fall inside some segment. -/
def maintenanceAllowsNow (segments : List maintenanceWindowSegment) (now : WeekTime) : Bool :=
  if segments.isEmpty then true
  else
    let minute := minuteOfWeek now
    segments.any (fun seg => seg.start ≤ minute && minute < seg.fin)

/-- internal/updates.nextMaintenanceWindow, reduced to the minute delta it
computes: the source returns `now` truncated to the minute plus this delta.
`none` corresponds to the `ok = false` return. -/
def nextMaintenanceWindowDelta (segments : List maintenanceWindowSegment)
    (now : WeekTime) : Option Nat :=
  if segments.isEmpty then none
  else
    let minute := minuteOfWeek now
    let best := segments.foldl
      (fun best seg =>
        let delta := if seg.start > minute then seg.start - minute
          else minutesPerWeek - minute + seg.start
        if delta = 0 then best
        else if delta < best then delta else best)
      (minutesPerWeek * 2)
    if best = minutesPerWeek * 2 then none else some best

/-- internal/updates.Status, as produced by parseStatus. -/
structure Status where
  channel : String
  state : String
  rebootRequired : Bool
  needsRollback : Bool
  rollbackTarget : String
  bootedChecksum : String
deriving DecidableEq

/-- Host commands the update manager can invoke. -/
inductive Command where
  | rebase (channel : String)
  | reboot
  | rollback
deriving DecidableEq

/-- internal/updates.Result. -/
structure Result where
  status : String
  rebootRequired : Bool
  events : List Event
deriving DecidableEq

/-- Outcomes of the external collaborators consumed by one
internal/updates.Manager.Apply call: the two rpm-ostree status fetches, the
rebase and reboot command results, and the RFC3339 renderings Go's time
package would produce (`rfc3339Now` for `now`, `rfc3339After d` for `now`
truncated to the minute plus `d` minutes). -/
structure ApplyWorld where
  fetch1 : Except Err Status
  rebaseRes : Option Err
  fetch2 : Except Err Status
  rebootRes : Option Err
  rfc3339Now : String
  rfc3339After : Nat → String

/-- Result of one internal/updates.Manager.Apply call together with the list
of host commands it invoked, in order. -/
structure ApplyOut where
  result : Result
  error : Option Err
  cmds : List Command

/-- Reboot-gating phase of internal/updates.Manager.Apply (the final `if` of
the source function). -/
def rebootPhase (mk : MkEvent) (w : ApplyWorld) (now : WeekTime)
    (windows : List maintenanceWindowSegment) (pol : UpdatePolicy)
    (base : Result) (cmds : List Command) : ApplyOut :=
  if pol.rebootRequired && base.rebootRequired then
    if maintenanceAllowsNow windows now then
      match w.rebootRes with
      | some e =>
        ⟨{ base with events := base.events ++ [mk "update.reboot.failure" [("error", e)] ] },
          some e, cmds ++ [Command.reboot]⟩
      | none =>
        ⟨{ base with events := base.events ++ [mk "update.reboot.triggered" [("time", w.rfc3339Now)] ] },
          none, cmds ++ [Command.reboot]⟩
    else
      match nextMaintenanceWindowDelta windows now with
      | some delta =>
        ⟨{ base with events :=
            base.events ++ [mk "update.reboot.deferred" [("scheduled_for", w.rfc3339After delta)] ] },
          none, cmds⟩
      | none =>
        ⟨{ base with events := base.events ++ [mk "update.reboot.deferred" [("reason", "no_window")] ] },
          none, cmds⟩
  else ⟨base, none, cmds⟩

/-- internal/updates.Manager.Apply: fetch status (abort with
`status="unavailable"` if that fails), parse the maintenance windows, rebase
if the policy channel differs (refreshing the status on success), then gate
the reboot on the maintenance windows. -/
def Apply (mk : MkEvent) (w : ApplyWorld) (pol : UpdatePolicy) (now : WeekTime) : ApplyOut :=
  match w.fetch1 with
  | .error e => ⟨{ status := "unavailable", rebootRequired := false, events := [] }, some e, []⟩
  | .ok status =>
    let result : Result := { status := status.state, rebootRequired := status.rebootRequired, events := [] }
    match parseMaintenanceWindows pol.maintenance with
    | .error e =>
      ⟨{ result with events := result.events ++ [mk "update.reboot.failure" [("error", e)] ] },
        some e, []⟩
    | .ok windows =>
      if pol.channel ≠ "" && status.channel ≠ pol.channel then
        match w.rebaseRes with
        | some e =>
          ⟨{ result with events :=
              result.events ++ [mk "update.apply.failure" [("channel", pol.channel), ("error", e)] ] },
            some e, [Command.rebase pol.channel]⟩
        | none =>
          let withEvent := { result with events :=
            result.events ++ [mk "update.apply.success" [("channel", pol.channel)] ] }
          let refreshed :=
            match w.fetch2 with
            | .ok fresh => { withEvent with status := fresh.state, rebootRequired := fresh.rebootRequired }
            | .error _ => withEvent
          rebootPhase mk w now windows pol refreshed [Command.rebase pol.channel]
      else rebootPhase mk w now windows pol result []

/-- Outcomes of the external collaborators consumed by one
internal/updates.Manager.EnsureRollback call: the status fetch, the
`systemctl is-active rollback.target` probe (exit code 3 is already folded
into `.ok false` by the source helper), and the rollback command result. -/
structure RollbackWorld where
  fetch : Except Err Status
  probe : Except Err Bool
  rollbackRes : Option Err

/-- Result of one EnsureRollback call: the new `lastRollbackAttempt` sticky
identifier, the returned events and error, and whether the rollback command
was invoked. -/
structure RollbackOut where
  last : String
  events : List Event
  error : Option Err
  invoked : Bool

/-- internal/updates.Manager.EnsureRollback, as a transition on the sticky
`lastRollbackAttempt` identifier. The source only runs the probe when the
fetched status does not itself demand a rollback; since the probe's value is
ignored in that case, it is read unconditionally here. A probe error is only
logged by the source. -/
def EnsureRollback (mk : MkEvent) (w : RollbackWorld) (last : String) : RollbackOut :=
  match w.fetch with
  | .error e => ⟨last, [], some e, false⟩
  | .ok status =>
    let needs := status.needsRollback ||
      (match w.probe with
       | .ok pending => pending
       | .error _ => false)
    if !needs then ⟨"", [], none, false⟩
    else
      let identifier := if status.bootedChecksum ≠ "" then status.bootedChecksum else status.channel
      if identifier ≠ "" && identifier = last then ⟨last, [], none, false⟩
      else
        match w.rollbackRes with
        | some e => ⟨identifier, [mk "update.rollback.failure" [("error", e)] ], some e, true⟩
        | none =>
          ⟨identifier,
            [mk "update.rollback.triggered"
              (if status.rollbackTarget ≠ "" then [("target", status.rollbackTarget)] else [])],
            none, true⟩

end Updates

namespace Security

/-- Outcomes of the host operations consumed by one
internal/security.Manager.Apply call, in source order: ensureSELinux,
configureSSH (the root-login drop-in file), toggleService for sshd,
writeUSBGuardRules, removeUSBGuardRules, toggleService for usbguard. -/
structure World where
  selinux : Option Err
  sshConfig : Option Err
  sshService : Option Err
  usbWrite : Option Err
  usbRemove : Option Err
  usbService : Option Err

/-- internal/security.Manager.Apply: every control failure is reported as a
failure event (a removeUSBGuardRules failure is only logged) and the function
always returns a nil error. -/
def Apply (mk : MkEvent) (w : World) (pol : SecurityPolicy) : List Event × Option Err :=
  let selinuxEvents : List Event :=
    match w.selinux with
    | some e => [mk "security.selinux.failure" [("error", e)] ]
    | none =>
      [mk "security.selinux.success"
        [("state", if pol.selinuxEnforce then "enforcing" else "permissive")] ]
  let sshConfigEvents : List Event :=
    match w.sshConfig with
    | some e => [mk "security.ssh.config.failure" [("error", e)] ]
    | none =>
      [mk "security.ssh.config.success"
        [("root_login", if pol.allowRootLogin then "enabled" else "disabled")] ]
  let sshServiceEvents : List Event :=
    match w.sshService with
    | some e => [mk "security.ssh.failure" [("error", e)] ]
    | none =>
      [mk "security.ssh.success" [("state", if pol.sshEnabled then "enabled" else "disabled")] ]
  let usbRulesEvents : List Event :=
    if pol.usbGuard then
      match w.usbWrite with
      | some e => [mk "security.usbguard.failure" [("error", e)] ]
      | none => [mk "security.usbguard.rules" [("count", Nat.repr pol.usbGuardRules.length)] ]
    else []
  let usbServiceEvents : List Event :=
    match w.usbService with
    | some e => [mk "security.usbguard.failure" [("error", e)] ]
    | none =>
      [mk "security.usbguard.success"
        [("state", if pol.usbGuard then "enabled" else "disabled")] ]
  (selinuxEvents ++ sshConfigEvents ++ sshServiceEvents ++ usbRulesEvents ++ usbServiceEvents,
    none)

end Security

namespace Policy

/-- The stages of internal/policy.Manager.Apply, recorded in the order they
were attempted. -/
inductive Step where
  | verify
  | persist
  | apps
  | browser
  | updates
  | network
  | security
deriving DecidableEq

/-- The five subsystem adapters as seen by the policy pipeline: each maps its
sub-policy to the events it generated and an optional error. The updates
adapter returns its events inside an updates.Result. -/
structure Adapters where
  apps : AppsPolicy → List Event × Option Err
  browser : BrowserPolicy → List Event × Option Err
  updates : UpdatePolicy → Updates.Result × Option Err
  network : NetworkPolicy → List Event × Option Err
  security : SecurityPolicy → List Event × Option Err

/-- Result of one internal/policy.Manager.Apply call: the attempted stages in
order, the returned events and error, and the manager's `lastVersion` field
after the call. -/
structure ApplyOut where
  trace : List Step
  events : List Event
  error : Option Err
  lastVersion : String

/-- Adapter fan-out of internal/policy.Manager.Apply: fixed order apps,
browser, updates, network, security; the first failure stops the fan-out and
returns the events collected so far (including the failing adapter's) with
that error; full success appends the `policy.apply.success` event and records
the envelope version as last applied. -/
def fanout (mk : MkEvent) (ad : Adapters) (env : PolicyEnvelope) (lastVersion : String)
    (pre : List Step) : ApplyOut :=
  match ad.apps env.policy.apps with
  | (evA, some e) => ⟨pre ++ [Step.apps], evA, some e, lastVersion⟩
  | (evA, none) =>
    match ad.browser env.policy.browser with
    | (evB, some e) => ⟨pre ++ [Step.apps, Step.browser], evA ++ evB, some e, lastVersion⟩
    | (evB, none) =>
      match ad.updates env.policy.updates with
      | (resU, some e) =>
        ⟨pre ++ [Step.apps, Step.browser, Step.updates], evA ++ evB ++ resU.events,
          some e, lastVersion⟩
      | (resU, none) =>
        match ad.network env.policy.network with
        | (evN, some e) =>
          ⟨pre ++ [Step.apps, Step.browser, Step.updates, Step.network],
            evA ++ evB ++ resU.events ++ evN, some e, lastVersion⟩
        | (evN, none) =>
          match ad.security env.policy.security with
          | (evS, some e) =>
            ⟨pre ++ [Step.apps, Step.browser, Step.updates, Step.network, Step.security],
              evA ++ evB ++ resU.events ++ evN ++ evS, some e, lastVersion⟩
          | (evS, none) =>
            ⟨pre ++ [Step.apps, Step.browser, Step.updates, Step.network, Step.security],
              evA ++ evB ++ resU.events ++ evN ++ evS ++
                [mk "policy.apply.success" [("version", env.version)] ],
              none, env.version⟩

/-- Cache-persist stage of internal/policy.Manager.Apply (`m.persist`): a
write-temp-then-rename of the envelope whose environmental outcome is
`persistErr`; on failure no adapter runs. -/
def persistPhase (mk : MkEvent) (persistErr : Option Err) (ad : Adapters)
    (env : PolicyEnvelope) (lastVersion : String) (pre : List Step) : ApplyOut :=
  match persistErr with
  | some e => ⟨pre ++ [Step.persist], [], some e, lastVersion⟩
  | none => fanout mk ad env lastVersion (pre ++ [Step.persist])

/-- internal/policy.Manager.Apply: verify the signature when a verifier is
configured (aborting before the cache write and before any adapter), persist
the envelope to the policy cache, then fan out to the adapters. -/
def Apply (mk : MkEvent) (verifier : Option (PolicyEnvelope → Option Err))
    (persistErr : Option Err) (ad : Adapters) (env : PolicyEnvelope)
    (lastVersion : String) : ApplyOut :=
  match verifier with
  | some v =>
    match v env with
    | some e => ⟨[Step.verify], [], some ("verify policy: " ++ e), lastVersion⟩
    | none => persistPhase mk persistErr ad env lastVersion [Step.verify]
  | none => persistPhase mk persistErr ad env lastVersion []

end Policy

namespace Events

/-- The on-disk event-queue file: absent, a decodable list of events (a
zero-byte file reads as the empty list), or unreadable/undecodable. -/
inductive QueueFile where
  | missing
  | contents (events : List Event)
  | corrupt
deriving DecidableEq

/-- internal/events.Queue.Load / readLocked: a missing file reads as empty, a
malformed or unreadable file fails with a decode error. -/
def Load : QueueFile → Except Err (List Event)
  | QueueFile.missing => .ok []
  | QueueFile.contents l => .ok l
  | QueueFile.corrupt => .error "decode events"

/-- internal/events.Queue.Append: no-op on an empty argument list; otherwise
read the existing contents, append, and atomically rewrite the whole file
(write to `path + ".tmp"`, then rename). `writeErr` is the environmental
outcome of that write; on any error the file keeps its pre-image. -/
def Append (writeErr : Option Err) (f : QueueFile) (evs : List Event) : Except Err QueueFile :=
  if evs = [] then .ok f
  else
    match Load f with
    | .error e => .error e
    | .ok existing =>
      match writeErr with
      | some e => .error e
      | none => .ok (QueueFile.contents (existing ++ evs))

/-- internal/events.Queue.Replace: atomically rewrite the file with exactly
the given events. -/
def Replace (writeErr : Option Err) (evs : List Event) : Except Err QueueFile :=
  match writeErr with
  | some e => .error e
  | none => .ok (QueueFile.contents evs)

end Events

/-- internal/config.Intervals; durations in nanoseconds. -/
structure Intervals where
  policyPoll : Nat
  stateReport : Nat
  eventFlush : Nat
  retryBackoff : Nat
  retryMaxDelay : Nat
deriving DecidableEq

/-- internal/config.Enrollment. -/
structure Enrollment where
  preSharedKey : String
  configPath : String
deriving DecidableEq

/-- internal/config.Logging. -/
structure Logging where
  level : String
deriving DecidableEq

/-- internal/config.Config, field for field. Note: the struct has no
`state_queue_path` field, although the shipped configuration file declares
one and internal/agent/agent.go reads `cfg.StateQueuePath`. -/
structure Config where
  backendURL : String
  deviceTokenPath : String
  policyCachePath : String
  eventQueuePath : String
  policyPublicKey : String
  enrollment : Enrollment
  intervals : Intervals
  logging : Logging
deriving DecidableEq

/-- internal/config.Config.Validate: requires the five string fields of the
struct non-empty and the first three intervals non-zero; returns the first
violation's message, or none. -/
def Config.Validate (c : Config) : Option Err :=
  if c.backendURL = "" then some "backend_url is required"
  else if c.deviceTokenPath = "" then some "device_token_path is required"
  else if c.policyCachePath = "" then some "policy_cache_path is required"
  else if c.eventQueuePath = "" then some "event_queue_path is required"
  else if c.policyPublicKey = "" then some "policy_public_key is required"
  else if c.intervals.policyPoll = 0 then some "intervals.policy_poll must be >0"
  else if c.intervals.stateReport = 0 then some "intervals.state_report must be >0"
  else if c.intervals.eventFlush = 0 then some "intervals.event_flush must be >0"
  else none

namespace Enroll

/-- internal/enroll.Credentials. -/
structure Credentials where
  deviceID : String
  deviceToken : String
  version : String
deriving DecidableEq

/-- Decoded content of the credential file written by
internal/enroll.Manager.saveCredentials: the credentials and the policy
envelope, stored together. -/
structure CredFileContent where
  cred : Credentials
  policy : PolicyEnvelope
deriving DecidableEq

/-- internal/enroll.Manager.saveCredentials: one atomic secure-file write
(util.WriteSecretFile: temp file, chmod 0600, rename) of the encoded
`{credentials, policy}` pair. The value is the post-image of the credential
file. -/
def saveCredentials (cred : Credentials) (policy : PolicyEnvelope) : CredFileContent :=
  ⟨cred, policy⟩

/-- Modelled from the spec: the enrollment manager's `Persist(credentials,
envelope)` operation is not among the provided sources —
internal/agent/agent.go calls `enrollManager.Persist` and
internal/enroll/manager.go defines only the private `saveCredentials` it
wraps. Per §4.3 of the spec it persists the pair through the same secure-file
discipline: one atomic credential-file write holding both the credentials and
the envelope. -/
def Persist (cred : Credentials) (policy : PolicyEnvelope) : CredFileContent :=
  saveCredentials cred policy

end Enroll

namespace Agent

/-- Outcome of the api.Client.PullPolicy call inside one policy-loop tick:
`notModified` is the 304 response (api.ErrNotModified), `failed` any other
error, `ok` a policy envelope. -/
inductive PullResult where
  | notModified
  | failed (e : Err)
  | ok (env : PolicyEnvelope)

/-- External collaborators consumed by one internal/agent.pullAndApplyPolicy
call: the pull outcome, the policy manager's Apply outcome for the pulled
envelope, and the environmental outcome of the credential-file write. -/
structure PullWorld where
  pull : PullResult
  applyRes : PolicyEnvelope → List Event × Option Err
  persistErr : Option Err

/-- Result of one pullAndApplyPolicy call: the agent's credentials after the
call, the credential-file writes performed (in order), the events handed to
the event queue, and the returned error. -/
structure PullOut where
  cred : Enroll.Credentials
  writes : List Enroll.CredFileContent
  events : List Event
  error : Option Err

/-- internal/agent.Agent.pullAndApplyPolicy: pull (304 returns nil), apply,
then adopt a server-rotated token when the envelope carries one that differs,
record the envelope version, and persist credentials and envelope in one
write via the enrollment manager. -/
def pullAndApplyPolicy (w : PullWorld) (cred : Enroll.Credentials) : PullOut :=
  match w.pull with
  | PullResult.notModified => ⟨cred, [], [], none⟩
  | PullResult.failed e => ⟨cred, [], [], some e⟩
  | PullResult.ok env =>
    match w.applyRes env with
    | (events, some e) => ⟨cred, [], events, some e⟩
    | (events, none) =>
      let token :=
        if env.deviceToken ≠ "" && env.deviceToken ≠ cred.deviceToken then env.deviceToken
        else cred.deviceToken
      let cred' : Enroll.Credentials :=
        { cred with deviceToken := token, version := env.version }
      match w.persistErr with
      | some e => ⟨cred', [], events, some ("persist credentials: " ++ e)⟩
      | none => ⟨cred', [Enroll.Persist cred' env], events, none⟩

end Agent

/-- Concrete EnsureRollback inputs: a status demanding rollback with booted
checksum `X` (rpm-ostree reachable, probe inactive, rollback command
succeeding). -/
def sickWorld : Updates.RollbackWorld :=
  ⟨.ok ⟨"chan", "error", false, true, "prev", "X"⟩, .ok false, none⟩

/-- Concrete EnsureRollback inputs: a healthy status demanding no rollback. -/
def healthyWorld : Updates.RollbackWorld :=
  ⟨.ok ⟨"chan", "idle", false, false, "", ""⟩, .ok false, none⟩

/-- Concrete EnsureRollback inputs: a status demanding rollback with empty
booted checksum and empty channel, so the computed identifier is empty. -/
def anonSickWorld : Updates.RollbackWorld :=
  ⟨.ok ⟨"", "error", false, true, "", ""⟩, .ok false, none⟩

/-- A minimal concrete policy document. -/
def samplePolicy : PolicyDocument :=
  ⟨⟨[]⟩, ⟨"", false, []⟩, ⟨"", [], false, []⟩, ⟨[], [], []⟩, ⟨false, false, false, [], false⟩⟩

/-- A concrete policy envelope without a rotated token. -/
def sampleEnvelope : PolicyEnvelope := ⟨"v1", "sig", samplePolicy, ""⟩

/-- A concrete policy envelope carrying a server-rotated token. -/
def rotatedEnvelope : PolicyEnvelope := ⟨"v2", "sig2", samplePolicy, "t2"⟩

/-- Concrete adapters that all succeed. -/
def okAdapters : Policy.Adapters :=
  ⟨fun _ => ([NewEvent 1 1 "app.install.success" [("app", "x")] ], none),
    fun _ => ([NewEvent 2 2 "browser.policy.updated" [] ], none),
    fun _ => (⟨"idle", false, []⟩, none),
    fun _ => ([], none),
    fun _ => ([NewEvent 3 3 "security.selinux.success" [("state", "enforcing")] ], none)⟩

/-- Concrete adapters whose browser reconciler fails. -/
def failBrowserAdapters : Policy.Adapters :=
  ⟨fun _ => ([NewEvent 1 1 "app.install.success" [("app", "x")] ], none),
    fun _ => ([], some "browser boom"),
    fun _ => (⟨"idle", false, []⟩, none),
    fun _ => ([], none),
    fun _ => ([NewEvent 3 3 "security.selinux.success" [("state", "enforcing")] ], none)⟩

/-- Concrete security-world inputs in which every host operation fails. -/
def secFailWorld : Security.World :=
  ⟨some "se", some "sc", some "ss", some "uw", some "ur", some "us"⟩

/-- Concrete adapters whose security reconciler is the embedded security
manager over `secFailWorld`, the rest succeeding. -/
def secAdapters : Policy.Adapters :=
  ⟨fun _ => ([], none),
    fun _ => ([], none),
    fun _ => (⟨"idle", false, []⟩, none),
    fun _ => ([], none),
    fun sp => Security.Apply (NewEvent 4 4) secFailWorld sp⟩

/-- Decimal digit characters of `n`, most significant first, as produced by
`Nat.repr` (`Nat.toDigits 10`), expressed through `Nat.digits`. -/
def reprDigits (n : Nat) : List Char :=
  if n = 0 then ['0'] else ((Nat.digits 10 n).map Nat.digitChar).reverse

/-! ### Supporting lemmas -/

theorem newEvent_wf (n1 n2 : Nat) : MkEvent.Wellformed (NewEvent n1 n2) :=
  fun _ _ => ⟨rfl, rfl⟩

theorem digitChar_inj_lt_ten :
    ∀ a < 10, ∀ b < 10, Nat.digitChar a = Nat.digitChar b → a = b := by decide

theorem reprDigits_step (n : Nat) (h0 : n ≠ 0) (h10 : n / 10 ≠ 0) :
    reprDigits n = reprDigits (n / 10) ++ [Nat.digitChar (n % 10)] := by
  unfold reprDigits
  rw [if_neg h0, if_neg h10, Nat.digits_def' (by norm_num) (Nat.pos_of_ne_zero h0)]
  simp

theorem toDigitsCore_eq_reprDigits :
    ∀ (fuel n : Nat) (ds : List Char), n < fuel →
      Nat.toDigitsCore 10 fuel n ds = reprDigits n ++ ds := by
  intro fuel
  induction fuel with
  | zero => intro n ds h; omega
  | succ fuel ih =>
    intro n ds _
    show Nat.toDigitsCore 10 (fuel + 1) n ds = reprDigits n ++ ds
    rw [Nat.toDigitsCore]
    by_cases h10 : n / 10 = 0
    · rw [if_pos h10]
      have hlt : n < 10 := by omega
      by_cases h0 : n = 0
      · subst h0; rfl
      · unfold reprDigits
        rw [if_neg h0, Nat.digits_def' (by norm_num) (Nat.pos_of_ne_zero h0), h10]
        simp
    · rw [if_neg h10]
      have h0 : n ≠ 0 := by omega
      have hdiv : n / 10 < n := Nat.div_lt_self (Nat.pos_of_ne_zero h0) (by norm_num)
      rw [ih (n / 10) (Nat.digitChar (n % 10) :: ds) (by omega),
        reprDigits_step n h0 h10]
      simp

theorem nat_repr_eq_reprDigits (n : Nat) : Nat.repr n = (reprDigits n).asString := by
  show (Nat.toDigits 10 n).asString = (reprDigits n).asString
  unfold Nat.toDigits
  rw [toDigitsCore_eq_reprDigits (n + 1) n [] (Nat.lt_succ_self n), List.append_nil]

theorem map_digitChar_inj :
    ∀ (l1 l2 : List Nat), (∀ d ∈ l1, d < 10) → (∀ d ∈ l2, d < 10) →
      l1.map Nat.digitChar = l2.map Nat.digitChar → l1 = l2 := by
  intro l1
  induction l1 with
  | nil => intro l2 _ _ h; cases l2 <;> simp_all
  | cons a t ih =>
    intro l2 hb1 hb2 h
    cases l2 with
    | nil => simp_all
    | cons b t2 =>
      simp only [List.map_cons, List.cons.injEq] at h
      have ha : a = b := digitChar_inj_lt_ten a (hb1 a (by simp)) b (hb2 b (by simp)) h.1
      have ht : t = t2 := ih t2 (fun d hd => hb1 d (by simp [hd]))
        (fun d hd => hb2 d (by simp [hd])) h.2
      rw [ha, ht]

theorem reprDigits_inj (m n : Nat) (h : reprDigits m = reprDigits n) : m = n := by
  have bound : ∀ k : Nat, ∀ d ∈ Nat.digits 10 k, d < 10 :=
    fun k d hd => Nat.digits_lt_base (by norm_num) hd
  have hzero : ∀ k : Nat, k ≠ 0 → reprDigits k ≠ ['0'] := by
    intro k hk hcon
    unfold reprDigits at hcon
    rw [if_neg hk] at hcon
    have hmap : (Nat.digits 10 k).map Nat.digitChar = ['0'] := by
      have := congrArg List.reverse hcon
      simpa using this
    have hdig : Nat.digits 10 k = [0] := by
      have h0 : Nat.digitChar 0 = '0' := rfl
      have : (Nat.digits 10 k).map Nat.digitChar = [0].map Nat.digitChar := by
        simpa [h0] using hmap
      exact map_digitChar_inj _ _ (bound k) (by simp) this
    have : k = 0 := by
      have := Nat.ofDigits_digits 10 k
      rw [hdig] at this
      simpa using this.symm
    exact hk this
  by_cases hm : m = 0
  · by_cases hn : n = 0
    · rw [hm, hn]
    · subst hm
      exact absurd h.symm (by simpa [reprDigits] using hzero n hn)
  · by_cases hn : n = 0
    · subst hn
      exact absurd h (by simpa [reprDigits] using hzero m hm)
    · unfold reprDigits at h
      rw [if_neg hm, if_neg hn] at h
      have hmap := congrArg List.reverse h
      simp only [List.reverse_reverse] at hmap
      have hdig := map_digitChar_inj _ _ (bound m) (bound n) hmap
      exact Nat.digits_inj_iff.mp hdig

theorem nat_repr_inj (m n : Nat) (h : Nat.repr m = Nat.repr n) : m = n := by
  rw [nat_repr_eq_reprDigits, nat_repr_eq_reprDigits] at h
  exact reprDigits_inj m n (congrArg String.data h)

/-! ### Claim theorems -/

/-- C6: the entry "Mon-Fri 02:00-03:00" parses to one segment per weekday;
those segments admit Monday 02:30 and reject Monday 04:00. The overnight
entry "Sun 23:00-01:00" (end before start) splits into two segments on
consecutive days; those admit Sunday 23:30 and Monday 00:30 and reject
Monday 02:00. (Weekday 0 is Sunday, 1 is Monday.) -/
theorem maintenance_windows_C6 :
    Updates.parseMaintenanceWindows ["Mon-Fri 02:00-03:00"] =
      .ok [⟨1560, 1620⟩, ⟨3000, 3060⟩, ⟨4440, 4500⟩, ⟨5880, 5940⟩, ⟨7320, 7380⟩] ∧
    Updates.maintenanceAllowsNow
      [⟨1560, 1620⟩, ⟨3000, 3060⟩, ⟨4440, 4500⟩, ⟨5880, 5940⟩, ⟨7320, 7380⟩] ⟨1, 2, 30⟩ = true ∧
    Updates.maintenanceAllowsNow
      [⟨1560, 1620⟩, ⟨3000, 3060⟩, ⟨4440, 4500⟩, ⟨5880, 5940⟩, ⟨7320, 7380⟩] ⟨1, 4, 0⟩ = false ∧
    Updates.parseMaintenanceWindows ["Sun 23:00-01:00"] = .ok [⟨1380, 1440⟩, ⟨1440, 1500⟩] ∧
    Updates.maintenanceAllowsNow [⟨1380, 1440⟩, ⟨1440, 1500⟩] ⟨0, 23, 30⟩ = true ∧
    Updates.maintenanceAllowsNow [⟨1380, 1440⟩, ⟨1440, 1500⟩] ⟨1, 0, 30⟩ = true ∧
    Updates.maintenanceAllowsNow [⟨1380, 1440⟩, ⟨1440, 1500⟩] ⟨1, 2, 0⟩ = false := by
  decide

/-- C9: maintenanceAllowsNow returns true at every instant when the segment
list is empty, so an update policy whose maintenance-window list parses to no
segments permits an immediate reboot: whenever the policy requires reboot,
the host is reboot-pending and no channel rebase intervenes, Apply invokes
the reboot command at once. -/
theorem empty_windows_allow_C9 :
    (∀ t : Updates.WeekTime, Updates.maintenanceAllowsNow [] t = true) ∧
    (∀ (mk : MkEvent) (w : Updates.ApplyWorld) (pol : UpdatePolicy)
        (now : Updates.WeekTime) (st : Updates.Status),
      w.fetch1 = .ok st →
      Updates.parseMaintenanceWindows pol.maintenance = .ok [] →
      pol.rebootRequired = true →
      st.rebootRequired = true →
      pol.channel = "" →
      (Updates.Apply mk w pol now).cmds = [Updates.Command.reboot]) := by
  constructor
  · intro t; rfl
  · intro mk w pol now st hfetch hparse hreq hst hchan
    have happly : Updates.Apply mk w pol now =
        Updates.rebootPhase mk w now [] pol
          { status := st.state, rebootRequired := st.rebootRequired, events := [] } [] := by
      unfold Updates.Apply
      rw [hfetch, hparse]
      simp [hchan]
    rw [happly]
    unfold Updates.rebootPhase
    simp only [hreq, hst, Bool.and_self, if_pos, Updates.maintenanceAllowsNow,
      List.isEmpty_nil, reduceIte]
    cases w.rebootRes <;> simp

/-- C9 witness: a concrete policy with an empty maintenance list, applied
while reboot-pending, invokes the reboot command immediately. -/
theorem empty_windows_allow_C9_witness :
    Updates.maintenanceAllowsNow [] ⟨1, 4, 0⟩ = true ∧
    (Updates.Apply (NewEvent 0 0)
      ⟨.ok ⟨"", "reboot_required", true, false, "", ""⟩, none,
        .ok ⟨"", "reboot_required", true, false, "", ""⟩, none,
        "2024-01-01T04:00:00Z", fun _ => ""⟩
      ⟨"", true, []⟩ ⟨1, 4, 0⟩).cmds = [Updates.Command.reboot] :=
  ⟨empty_windows_allow_C9.1 ⟨1, 4, 0⟩,
    empty_windows_allow_C9.2 (NewEvent 0 0) _ _ ⟨1, 4, 0⟩
      ⟨"", "reboot_required", true, false, "", ""⟩ rfl (by decide) rfl rfl rfl⟩

/-- C2 counterexample: an update policy that requires reboot, applied while
reboot-pending with a maintenance-window list yielding no segments, does not
emit an update.reboot.deferred event with reason=no_window — it triggers the
reboot immediately (empty segment lists allow every instant). -/
theorem update_no_window_C2_counterexample :
    (Updates.Apply (NewEvent 0 0)
      ⟨.ok ⟨"", "reboot_required", true, false, "", ""⟩, none,
        .ok ⟨"", "reboot_required", true, false, "", ""⟩, none,
        "2024-01-01T04:00:00Z", fun _ => ""⟩
      ⟨"", true, []⟩ ⟨1, 4, 0⟩).cmds = [Updates.Command.reboot] ∧
    ((Updates.Apply (NewEvent 0 0)
      ⟨.ok ⟨"", "reboot_required", true, false, "", ""⟩, none,
        .ok ⟨"", "reboot_required", true, false, "", ""⟩, none,
        "2024-01-01T04:00:00Z", fun _ => ""⟩
      ⟨"", true, []⟩ ⟨1, 4, 0⟩).result.events.map Event.type) = ["update.reboot.triggered"] ∧
    (((Updates.Apply (NewEvent 0 0)
      ⟨.ok ⟨"", "reboot_required", true, false, "", ""⟩, none,
        .ok ⟨"", "reboot_required", true, false, "", ""⟩, none,
        "2024-01-01T04:00:00Z", fun _ => ""⟩
      ⟨"", true, []⟩ ⟨1, 4, 0⟩).result.events.map Event.type).contains
        "update.reboot.deferred") = false := by
  decide

/-- C2 as amended: when the maintenance-window list yields no segments and
the policy requires reboot while the host is reboot-pending (no channel
rebase intervening), Apply treats every instant as inside a window: it
invokes the reboot command immediately, emitting update.reboot.triggered on
success or update.reboot.failure on command error, and emits no
update.reboot.deferred event. -/
theorem update_no_window_C2_amended :
    ∀ (mk : MkEvent) (w : Updates.ApplyWorld) (pol : UpdatePolicy)
      (now : Updates.WeekTime) (st : Updates.Status),
      MkEvent.Wellformed mk →
      w.fetch1 = .ok st →
      Updates.parseMaintenanceWindows pol.maintenance = .ok [] →
      pol.rebootRequired = true →
      st.rebootRequired = true →
      pol.channel = "" →
      (Updates.Apply mk w pol now).cmds = [Updates.Command.reboot] ∧
      (w.rebootRes = none →
        (Updates.Apply mk w pol now).result.events =
          [mk "update.reboot.triggered" [("time", w.rfc3339Now)] ] ∧
        (Updates.Apply mk w pol now).error = none) ∧
      (∀ e, w.rebootRes = some e →
        (Updates.Apply mk w pol now).result.events =
          [mk "update.reboot.failure" [("error", e)] ] ∧
        (Updates.Apply mk w pol now).error = some e) ∧
      (∀ ev ∈ (Updates.Apply mk w pol now).result.events,
        ev.type ≠ "update.reboot.deferred") := by
  intro mk w pol now st hmk hfetch hparse hreq hst hchan
  have happly : Updates.Apply mk w pol now =
      Updates.rebootPhase mk w now [] pol
        { status := st.state, rebootRequired := st.rebootRequired, events := [] } [] := by
    unfold Updates.Apply
    rw [hfetch, hparse]
    simp [hchan]
  have hphase : Updates.rebootPhase mk w now [] pol
      { status := st.state, rebootRequired := st.rebootRequired, events := [] } [] =
      (match w.rebootRes with
       | some e =>
        ⟨{ status := st.state, rebootRequired := st.rebootRequired,
            events := [mk "update.reboot.failure" [("error", e)] ] }, some e,
          [Updates.Command.reboot]⟩
       | none =>
        ⟨{ status := st.state, rebootRequired := st.rebootRequired,
            events := [mk "update.reboot.triggered" [("time", w.rfc3339Now)] ] }, none,
          [Updates.Command.reboot]⟩) := by
    unfold Updates.rebootPhase
    simp only [hreq, hst, Bool.and_self, if_pos, Updates.maintenanceAllowsNow,
      List.isEmpty_nil, reduceIte]
    cases w.rebootRes <;> simp
  rw [happly, hphase]
  cases hres : w.rebootRes with
  | none =>
    refine ⟨rfl, fun _ => ⟨rfl, rfl⟩, ?_, ?_⟩
    · intro e he
      exact absurd he (by simp)
    · intro ev hev
      simp only [List.mem_singleton] at hev
      rw [hev, (hmk "update.reboot.triggered" _).1]
      decide
  | some e0 =>
    refine ⟨rfl, ?_, ?_, ?_⟩
    · intro h
      exact absurd h (by simp)
    · intro e he
      have he' : e0 = e := by
        simpa using he
      subst he'
      exact ⟨rfl, rfl⟩
    · intro ev hev
      simp only [List.mem_singleton] at hev
      rw [hev, (hmk "update.reboot.failure" _).1]
      decide

/-- C2 amended witness: the concrete no-segment policy triggers the reboot
and emits exactly the update.reboot.triggered event. -/
theorem update_no_window_C2_amended_witness :
    (Updates.Apply (NewEvent 0 0)
      ⟨.ok ⟨"", "reboot_required", true, false, "", ""⟩, none,
        .ok ⟨"", "reboot_required", true, false, "", ""⟩, none,
        "2024-01-01T04:00:00Z", fun _ => ""⟩
      ⟨"", true, []⟩ ⟨1, 4, 0⟩).cmds = [Updates.Command.reboot] ∧
    (Updates.Apply (NewEvent 0 0)
      ⟨.ok ⟨"", "reboot_required", true, false, "", ""⟩, none,
        .ok ⟨"", "reboot_required", true, false, "", ""⟩, none,
        "2024-01-01T04:00:00Z", fun _ => ""⟩
      ⟨"", true, []⟩ ⟨1, 4, 0⟩).result.events =
      [NewEvent 0 0 "update.reboot.triggered" [("time", "2024-01-01T04:00:00Z")] ] := by
  have h := update_no_window_C2_amended (NewEvent 0 0)
    ⟨.ok ⟨"", "reboot_required", true, false, "", ""⟩, none,
      .ok ⟨"", "reboot_required", true, false, "", ""⟩, none,
      "2024-01-01T04:00:00Z", fun _ => ""⟩
    ⟨"", true, []⟩ ⟨1, 4, 0⟩ ⟨"", "reboot_required", true, false, "", ""⟩
    (newEvent_wf 0 0) rfl (by decide) rfl rfl rfl
  exact ⟨h.1, (h.2.1 rfl).1⟩

/-- C5 counterexample: the rollback command is not invoked at most once per
distinct booted checksum across every call sequence — after an attempt for
checksum X, an intervening no-rollback-needed call clears the sticky
identifier, and a later call for the same checksum X invokes the command
again; moreover a call whose computed identifier (empty checksum, empty
channel) equals the initial last-attempted identifier "" still invokes the
command and returns an event. -/
theorem rollback_once_C5_counterexample :
    (Updates.EnsureRollback (NewEvent 0 0) sickWorld "").invoked = true ∧
    (Updates.EnsureRollback (NewEvent 0 0) sickWorld "").last = "X" ∧
    (Updates.EnsureRollback (NewEvent 0 0) healthyWorld
      ((Updates.EnsureRollback (NewEvent 0 0) sickWorld "").last)).invoked = false ∧
    (Updates.EnsureRollback (NewEvent 0 0) healthyWorld
      ((Updates.EnsureRollback (NewEvent 0 0) sickWorld "").last)).last = "" ∧
    (Updates.EnsureRollback (NewEvent 0 0) sickWorld
      ((Updates.EnsureRollback (NewEvent 0 0) healthyWorld
        ((Updates.EnsureRollback (NewEvent 0 0) sickWorld "").last)).last)).invoked = true ∧
    (Updates.EnsureRollback (NewEvent 0 0) anonSickWorld "").invoked = true ∧
    (Updates.EnsureRollback (NewEvent 0 0) anonSickWorld "").events ≠ [] := by
  decide

/-- C5 as amended: a call whose computed identifier (booted checksum, falling
back to channel) is nonempty and equals the remembered last-attempted
identifier invokes no rollback command and returns no events and no error;
consequently two consecutive calls observing the same rollback-demanding
status with a nonempty booted checksum invoke the command at most once. The
memory is cleared by an intervening call that needs no rollback, and an
empty identifier never suppresses the attempt. -/
theorem rollback_once_C5_amended :
    ∀ (mk : MkEvent) (w : Updates.RollbackWorld) (st : Updates.Status) (last : String),
      w.fetch = .ok st →
      ((if st.bootedChecksum ≠ "" then st.bootedChecksum else st.channel) ≠ "" →
        (if st.bootedChecksum ≠ "" then st.bootedChecksum else st.channel) = last →
        (Updates.EnsureRollback mk w last).invoked = false ∧
        (Updates.EnsureRollback mk w last).events = [] ∧
        (Updates.EnsureRollback mk w last).error = none) ∧
      (st.needsRollback = true → st.bootedChecksum ≠ "" →
        (Updates.EnsureRollback mk w
          ((Updates.EnsureRollback mk w last).last)).invoked = false) := by
  intro mk w st last hfetch
  constructor
  · intro hne heq
    unfold Updates.EnsureRollback
    rw [hfetch]
    by_cases hneeds : (st.needsRollback ||
        (match w.probe with
         | .ok pending => pending
         | .error _ => false)) = true
    · simp only [hneeds, Bool.not_true, Bool.false_eq_true, reduceIte]
      have hlast : last ≠ "" := heq ▸ hne
      simp [heq, hlast]
    · simp only [Bool.not_eq_true] at hneeds
      simp [hneeds]
  · intro hneed hcs
    have hident : (if st.bootedChecksum ≠ "" then st.bootedChecksum else st.channel) =
        st.bootedChecksum := by simp [hcs]
    have hfirst : (Updates.EnsureRollback mk w last).last = "" ∨
        (Updates.EnsureRollback mk w last).last = st.bootedChecksum := by
      unfold Updates.EnsureRollback
      rw [hfetch]
      simp only [hneed, Bool.true_or, Bool.not_true, Bool.false_eq_true, reduceIte, hident]
      by_cases hskip : (st.bootedChecksum ≠ "" && st.bootedChecksum = last) = true
      · simp only [hskip, reduceIte]
        simp only [Bool.and_eq_true, decide_eq_true_eq] at hskip
        exact Or.inr hskip.2.symm
      · simp only [hskip, Bool.false_eq_true, reduceIte]
        cases w.rollbackRes <;> exact Or.inr rfl
    rcases hfirst with h0 | hX
    · rw [h0]
      -- the first call cleared nothing here: an empty remembered identifier
      -- cannot suppress, but with needsRollback the branch re-attempts; this
      -- disjunct is impossible because needsRollback forces an attempt.
      unfold Updates.EnsureRollback at h0 ⊢
      rw [hfetch] at h0 ⊢
      simp only [hneed, Bool.true_or, Bool.not_true, Bool.false_eq_true, reduceIte,
        hident] at h0 ⊢
      by_cases hskip : (st.bootedChecksum ≠ "" && st.bootedChecksum = last) = true
      · simp only [hskip, reduceIte] at h0
        simp only [Bool.and_eq_true, decide_eq_true_eq] at hskip
        exact absurd (h0 ▸ hskip.2.symm ▸ hskip.1) (by simp [h0])
      · simp only [hskip, Bool.false_eq_true, reduceIte] at h0
        cases hres : w.rollbackRes with
        | some e => rw [hres] at h0; exact absurd h0 hcs
        | none => rw [hres] at h0; exact absurd h0 hcs
    · rw [hX]
      unfold Updates.EnsureRollback
      rw [hfetch]
      simp only [hneed, Bool.true_or, Bool.not_true, Bool.false_eq_true, reduceIte, hident]
      simp [hcs]

/-- C5 amended witness: with the remembered identifier already X, a call
observing booted checksum X is silently skipped, and the two-call sequence
from any starting identifier invokes the command at most once. -/
theorem rollback_once_C5_amended_witness :
    ((Updates.EnsureRollback (NewEvent 0 0) sickWorld "X").invoked = false ∧
     (Updates.EnsureRollback (NewEvent 0 0) sickWorld "X").events = [] ∧
     (Updates.EnsureRollback (NewEvent 0 0) sickWorld "X").error = none) ∧
    (Updates.EnsureRollback (NewEvent 0 0) sickWorld
      ((Updates.EnsureRollback (NewEvent 0 0) sickWorld "").last)).invoked = false := by
  have h := rollback_once_C5_amended (NewEvent 0 0) sickWorld
    ⟨"chan", "error", false, true, "prev", "X"⟩ "X" rfl
  have h2 := rollback_once_C5_amended (NewEvent 0 0) sickWorld
    ⟨"chan", "error", false, true, "prev", "X"⟩ "" rfl
  exact ⟨h.1 (by decide) (by decide), h2.2 rfl (by decide)⟩

/-- C10: the security manager's Apply returns a nil error for every input;
each failure of the five controls (SELinux, SSH config, SSH service,
USBGuard rules when USBGuard is enabled, USBGuard service) is reported as a
failure event in the returned list; consequently a policy fan-out that
reaches the security adapter never stops there. -/
theorem security_apply_C10 :
    ∀ (mk : MkEvent) (w : Security.World) (pol : SecurityPolicy),
      (Security.Apply mk w pol).2 = none ∧
      (∀ e, w.selinux = some e →
        mk "security.selinux.failure" [("error", e)] ∈ (Security.Apply mk w pol).1) ∧
      (∀ e, w.sshConfig = some e →
        mk "security.ssh.config.failure" [("error", e)] ∈ (Security.Apply mk w pol).1) ∧
      (∀ e, w.sshService = some e →
        mk "security.ssh.failure" [("error", e)] ∈ (Security.Apply mk w pol).1) ∧
      (∀ e, w.usbWrite = some e → pol.usbGuard = true →
        mk "security.usbguard.failure" [("error", e)] ∈ (Security.Apply mk w pol).1) ∧
      (∀ e, w.usbService = some e →
        mk "security.usbguard.failure" [("error", e)] ∈ (Security.Apply mk w pol).1) ∧
      (∀ (ad : Policy.Adapters) (env : PolicyEnvelope) (last : String)
          (pre : List Policy.Step) (evA evB evN : List Event) (resU : Updates.Result),
        ad.apps env.policy.apps = (evA, none) →
        ad.browser env.policy.browser = (evB, none) →
        ad.updates env.policy.updates = (resU, none) →
        ad.network env.policy.network = (evN, none) →
        ad.security = (fun sp => Security.Apply mk w sp) →
        (Policy.fanout mk ad env last pre).error = none) := by
  intro mk w pol
  refine ⟨rfl, ?_, ?_, ?_, ?_, ?_, ?_⟩
  · intro e he
    simp [Security.Apply, he]
  · intro e he
    simp [Security.Apply, he]
  · intro e he
    simp [Security.Apply, he]
  · intro e he hug
    simp [Security.Apply, he, hug]
  · intro e he
    simp [Security.Apply, he]
  · intro ad env last pre evA evB evN resU ha hb hu hn hs
    simp [Policy.fanout, ha, hb, hu, hn, hs, Security.Apply]

/-- C10 witness: with every host operation failing, Apply still returns a
nil error, reports the SELinux failure as an event, and the policy fan-out
through this security adapter completes without error. -/
theorem security_apply_C10_witness :
    (Security.Apply (NewEvent 4 4) secFailWorld ⟨true, true, true, ["r"], true⟩).2 = none ∧
    NewEvent 4 4 "security.selinux.failure" [("error", "se")] ∈
      (Security.Apply (NewEvent 4 4) secFailWorld ⟨true, true, true, ["r"], true⟩).1 ∧
    (Policy.fanout (NewEvent 4 4) secAdapters sampleEnvelope "v0" []).error = none := by
  have h := security_apply_C10 (NewEvent 4 4) secFailWorld ⟨true, true, true, ["r"], true⟩
  exact ⟨h.1, h.2.1 "se" rfl,
    h.2.2.2.2.2.2 secAdapters sampleEnvelope "v0" [] [] [] [] ⟨"idle", false, []⟩
      rfl rfl rfl rfl rfl⟩

/-- C1: policy reconciliation order and failure semantics. With a configured
verifier, a verification failure aborts with only the verify stage attempted
(no cache write, no adapter). A cache-persist failure aborts after verify
and persist with no adapter run. Otherwise the fan-out runs apps, browser,
updates, network, security in that order; the first adapter failure stops
the fan-out, returning the events collected so far (including the failing
adapter's) together with that failure and leaving the recorded last-applied
version unchanged — no undo of earlier adapters appears in the trace; on
full success the returned events end with a policy.apply.success event
carrying the envelope version, which is recorded as last applied. -/
theorem policy_apply_pipeline_C1 :
    ∀ (mk : MkEvent) (verifier : PolicyEnvelope → Option Err)
      (ad : Policy.Adapters) (env : PolicyEnvelope) (last : String),
      (∀ e, verifier env = some e → ∀ persistErr,
        Policy.Apply mk (some verifier) persistErr ad env last =
          ⟨[Policy.Step.verify], [], some ("verify policy: " ++ e), last⟩) ∧
      (verifier env = none →
        ((∀ e, Policy.Apply mk (some verifier) (some e) ad env last =
            ⟨[Policy.Step.verify, Policy.Step.persist], [], some e, last⟩) ∧
         (∀ (evA evB evN evS : List Event) (resU : Updates.Result),
          (∀ e, ad.apps env.policy.apps = (evA, some e) →
            Policy.Apply mk (some verifier) none ad env last =
              ⟨[Policy.Step.verify, Policy.Step.persist, Policy.Step.apps],
                evA, some e, last⟩) ∧
          (ad.apps env.policy.apps = (evA, none) →
            ((∀ e, ad.browser env.policy.browser = (evB, some e) →
              Policy.Apply mk (some verifier) none ad env last =
                ⟨[Policy.Step.verify, Policy.Step.persist, Policy.Step.apps,
                    Policy.Step.browser], evA ++ evB, some e, last⟩) ∧
             (ad.browser env.policy.browser = (evB, none) →
              ((∀ e, ad.updates env.policy.updates = (resU, some e) →
                Policy.Apply mk (some verifier) none ad env last =
                  ⟨[Policy.Step.verify, Policy.Step.persist, Policy.Step.apps,
                      Policy.Step.browser, Policy.Step.updates],
                    evA ++ evB ++ resU.events, some e, last⟩) ∧
               (ad.updates env.policy.updates = (resU, none) →
                ((∀ e, ad.network env.policy.network = (evN, some e) →
                  Policy.Apply mk (some verifier) none ad env last =
                    ⟨[Policy.Step.verify, Policy.Step.persist, Policy.Step.apps,
                        Policy.Step.browser, Policy.Step.updates, Policy.Step.network],
                      evA ++ evB ++ resU.events ++ evN, some e, last⟩) ∧
                 (ad.network env.policy.network = (evN, none) →
                  ((∀ e, ad.security env.policy.security = (evS, some e) →
                    Policy.Apply mk (some verifier) none ad env last =
                      ⟨[Policy.Step.verify, Policy.Step.persist, Policy.Step.apps,
                          Policy.Step.browser, Policy.Step.updates, Policy.Step.network,
                          Policy.Step.security],
                        evA ++ evB ++ resU.events ++ evN ++ evS, some e, last⟩) ∧
                   (ad.security env.policy.security = (evS, none) →
                    Policy.Apply mk (some verifier) none ad env last =
                      ⟨[Policy.Step.verify, Policy.Step.persist, Policy.Step.apps,
                          Policy.Step.browser, Policy.Step.updates, Policy.Step.network,
                          Policy.Step.security],
                        evA ++ evB ++ resU.events ++ evN ++ evS ++
                          [mk "policy.apply.success" [("version", env.version)] ],
                        none, env.version⟩)))))))))))) := by
  intro mk verifier ad env last
  constructor
  · intro e hv persistErr
    simp [Policy.Apply, hv]
  · intro hv
    constructor
    · intro e
      simp [Policy.Apply, hv, Policy.persistPhase]
    · intro evA evB evN evS resU
      refine ⟨?_, ?_⟩
      · intro e ha
        simp [Policy.Apply, hv, Policy.persistPhase, Policy.fanout, ha]
      · intro ha
        refine ⟨?_, ?_⟩
        · intro e hb
          simp [Policy.Apply, hv, Policy.persistPhase, Policy.fanout, ha, hb]
        · intro hb
          refine ⟨?_, ?_⟩
          · intro e hu
            simp [Policy.Apply, hv, Policy.persistPhase, Policy.fanout, ha, hb, hu]
          · intro hu
            refine ⟨?_, ?_⟩
            · intro e hn
              simp [Policy.Apply, hv, Policy.persistPhase, Policy.fanout, ha, hb, hu, hn]
            · intro hn
              refine ⟨?_, ?_⟩
              · intro e hs
                simp [Policy.Apply, hv, Policy.persistPhase, Policy.fanout, ha, hb, hu, hn, hs]
              · intro hs
                simp [Policy.Apply, hv, Policy.persistPhase, Policy.fanout, ha, hb, hu, hn, hs]

/-- C1 witness: the concrete pipeline aborts on a bad signature with nothing
persisted and no adapter run, completes in full adapter order on success with
the policy.apply.success event carrying the version, and stops at the failing
browser adapter keeping the apps events. -/
theorem policy_apply_pipeline_C1_witness :
    Policy.Apply (NewEvent 9 9) (some fun _ => some "bad signature") none okAdapters
      sampleEnvelope "v0" =
      ⟨[Policy.Step.verify], [], some "verify policy: bad signature", "v0"⟩ ∧
    Policy.Apply (NewEvent 9 9) (some fun _ => none) none okAdapters sampleEnvelope "v0" =
      ⟨[Policy.Step.verify, Policy.Step.persist, Policy.Step.apps, Policy.Step.browser,
          Policy.Step.updates, Policy.Step.network, Policy.Step.security],
        [NewEvent 1 1 "app.install.success" [("app", "x")] ] ++
          [NewEvent 2 2 "browser.policy.updated" [] ] ++ [] ++ [] ++
          [NewEvent 3 3 "security.selinux.success" [("state", "enforcing")] ] ++
          [NewEvent 9 9 "policy.apply.success" [("version", "v1")] ],
        none, "v1"⟩ ∧
    Policy.Apply (NewEvent 9 9) (some fun _ => none) none failBrowserAdapters
      sampleEnvelope "v0" =
      ⟨[Policy.Step.verify, Policy.Step.persist, Policy.Step.apps, Policy.Step.browser],
        [NewEvent 1 1 "app.install.success" [("app", "x")] ] ++ [], some "browser boom", "v0"⟩ := by
  have h1 := (policy_apply_pipeline_C1 (NewEvent 9 9) (fun _ => some "bad signature")
    okAdapters sampleEnvelope "v0").1 "bad signature" rfl none
  have h2 := ((policy_apply_pipeline_C1 (NewEvent 9 9) (fun _ => none)
    okAdapters sampleEnvelope "v0").2 rfl).2
    [NewEvent 1 1 "app.install.success" [("app", "x")] ]
    [NewEvent 2 2 "browser.policy.updated" [] ] []
    [NewEvent 3 3 "security.selinux.success" [("state", "enforcing")] ]
    ⟨"idle", false, []⟩
  have hsucc := ((((h2.2 rfl).2 rfl).2 rfl).2 rfl).2 rfl
  have h3 := (((policy_apply_pipeline_C1 (NewEvent 9 9) (fun _ => none)
    failBrowserAdapters sampleEnvelope "v0").2 rfl).2
    [NewEvent 1 1 "app.install.success" [("app", "x")] ] [] [] [] ⟨"idle", false, []⟩).2 rfl
  exact ⟨h1, by simpa using hsucc, h3.1 "browser boom" rfl⟩

/-- C7: after a successful Append of x, Load returns the pre-state followed
by x: it contains x, its prefix equals the pre-state, and — since Load reads
the whole persisted file, which is all the state a restarted process sees —
insertion order is preserved across restarts. -/
theorem queue_append_load_C7 :
    ∀ (we : Option Err) (f f' : Events.QueueFile) (pre : List Event) (x : Event),
      Events.Load f = .ok pre →
      Events.Append we f [x] = .ok f' →
      Events.Load f' = .ok (pre ++ [x]) ∧ x ∈ pre ++ [x] ∧ pre <+: (pre ++ [x]) := by
  intro we f f' pre x hload happ
  unfold Events.Append at happ
  rw [if_neg (by simp)] at happ
  rw [hload] at happ
  cases we with
  | some e => exact absurd happ (by simp)
  | none =>
    have hf' : Events.QueueFile.contents (pre ++ [x]) = f' := by
      simpa using happ
    rw [← hf']
    exact ⟨rfl, by simp, ⟨[x], rfl⟩⟩

/-- C7 witness: appending a concrete event to a concrete queue file yields a
load result containing it with the pre-state as prefix. -/
theorem queue_append_load_C7_witness :
    Events.Load (Events.QueueFile.contents
      ([NewEvent 1 1 "a" [] ] ++ [NewEvent 2 2 "b" [] ])) =
      .ok ([NewEvent 1 1 "a" [] ] ++ [NewEvent 2 2 "b" [] ]) ∧
    NewEvent 2 2 "b" [] ∈ [NewEvent 1 1 "a" [] ] ++ [NewEvent 2 2 "b" [] ] ∧
    [NewEvent 1 1 "a" [] ] <+: ([NewEvent 1 1 "a" [] ] ++ [NewEvent 2 2 "b" [] ]) :=
  queue_append_load_C7 none (Events.QueueFile.contents [NewEvent 1 1 "a" [] ])
    (Events.QueueFile.contents ([NewEvent 1 1 "a" [] ] ++ [NewEvent 2 2 "b" [] ]))
    [NewEvent 1 1 "a" [] ] (NewEvent 2 2 "b" []) rfl (by simp [Events.Append, Events.Load])

/-- C3: the claim is right and the code is wrong. The config struct omits
state_queue_path even though the shipped configuration file declares it and
internal/agent/agent.go reads cfg.StateQueuePath, so Validate cannot check it:
a configuration corresponding to the test fixture with state_queue_path
removed (every struct field present, first three intervals non-zero) passes
validation instead of failing. The second conjunct shows the embedded
Validate does reject an empty configuration, first complaining about
backend_url. -/
theorem config_validate_C3_bug :
    Config.Validate
      ⟨"https://example.com", "/etc/evergreen/token", "/var/lib/evergreen/policy.json",
        "/var/lib/evergreen/events.json", "/etc/evergreen/policy.pem",
        ⟨"secret", "/etc/evergreen/enroll.json"⟩,
        ⟨30000000000, 60000000000, 15000000000, 5000000000, 300000000000⟩,
        ⟨"debug"⟩⟩ = none ∧
    Config.Validate ⟨"", "", "", "", "", ⟨"", ""⟩, ⟨0, 0, 0, 0, 0⟩, ⟨""⟩⟩ =
      some "backend_url is required" := by
  decide

/-- C4: on a successful apply of a pulled envelope carrying a rotated token,
pullAndApplyPolicy adopts the token and the envelope version into the
credentials and persists credentials and envelope through the enrollment
manager's Persist in exactly one credential-file write, whose content holds
both the rotated token and the stored policy envelope. -/
theorem token_rotation_persist_C4 :
    ∀ (w : Agent.PullWorld) (cred : Enroll.Credentials) (env : PolicyEnvelope)
      (events : List Event),
      w.pull = Agent.PullResult.ok env →
      w.applyRes env = (events, none) →
      w.persistErr = none →
      env.deviceToken ≠ "" →
      env.deviceToken ≠ cred.deviceToken →
      (Agent.pullAndApplyPolicy w cred).cred =
        ⟨cred.deviceID, env.deviceToken, env.version⟩ ∧
      (Agent.pullAndApplyPolicy w cred).writes =
        [Enroll.Persist ⟨cred.deviceID, env.deviceToken, env.version⟩ env] ∧
      (Agent.pullAndApplyPolicy w cred).events = events ∧
      (Agent.pullAndApplyPolicy w cred).error = none ∧
      (Enroll.Persist ⟨cred.deviceID, env.deviceToken, env.version⟩ env).cred.deviceToken =
        env.deviceToken ∧
      (Enroll.Persist ⟨cred.deviceID, env.deviceToken, env.version⟩ env).policy = env := by
  intro w cred env events hpull happ hpersist hne hdiff
  have hout : Agent.pullAndApplyPolicy w cred =
      ⟨⟨cred.deviceID, env.deviceToken, env.version⟩,
        [Enroll.Persist ⟨cred.deviceID, env.deviceToken, env.version⟩ env], events, none⟩ := by
    unfold Agent.pullAndApplyPolicy
    simp [hpull, happ, hpersist, hne, hdiff]
  rw [hout]
  exact ⟨rfl, rfl, rfl, rfl, rfl, rfl⟩

/-- C4 witness: rotating from token t1 to t2 with envelope version v2
produces exactly one credential-file write holding both t2 and the envelope. -/
theorem token_rotation_persist_C4_witness :
    (Agent.pullAndApplyPolicy
      ⟨Agent.PullResult.ok rotatedEnvelope, fun _ => ([], none), none⟩
      ⟨"d1", "t1", "v0"⟩).writes =
      [Enroll.Persist ⟨"d1", "t2", "v2"⟩ rotatedEnvelope] ∧
    (Agent.pullAndApplyPolicy
      ⟨Agent.PullResult.ok rotatedEnvelope, fun _ => ([], none), none⟩
      ⟨"d1", "t1", "v0"⟩).cred = ⟨"d1", "t2", "v2"⟩ ∧
    (Enroll.Persist ⟨"d1", "t2", "v2"⟩ rotatedEnvelope).policy = rotatedEnvelope := by
  have h := token_rotation_persist_C4
    ⟨Agent.PullResult.ok rotatedEnvelope, fun _ => ([], none), none⟩
    ⟨"d1", "t1", "v0"⟩ rotatedEnvelope [] rfl rfl rfl (by decide) (by decide)
  exact ⟨h.2.1, h.1, h.2.2.2.2.2⟩

/-- C8 counterexample: event ids are not guaranteed pairwise distinct in a
queue file produced by the agent's operations — two NewEvent calls observing
the same UnixNano reading yield distinct events with equal ids, and
appending both to a queue produces a file whose id list is not Nodup. -/
theorem event_id_C8_counterexample :
    (NewEvent 5 5 "login.success" [("user", "alice")]).id =
      (NewEvent 5 7 "login.failure" [("user", "bob")]).id ∧
    NewEvent 5 5 "login.success" [("user", "alice")] ≠
      NewEvent 5 7 "login.failure" [("user", "bob")] ∧
    Events.Append none
      (Events.QueueFile.contents [NewEvent 5 5 "login.success" [("user", "alice")] ])
      [NewEvent 5 7 "login.failure" [("user", "bob")] ] =
      .ok (Events.QueueFile.contents
        [NewEvent 5 5 "login.success" [("user", "alice")],
          NewEvent 5 7 "login.failure" [("user", "bob")] ]) ∧
    ¬ (([NewEvent 5 5 "login.success" [("user", "alice")],
          NewEvent 5 7 "login.failure" [("user", "bob")] ].map Event.id).Nodup) := by
  decide

/-- C8 as amended: an event's id is the decimal rendering of the UnixNano
clock reading taken at creation, so ids are pairwise distinct provided those
readings are pairwise distinct (two events created in the same nanosecond
share an id); every event's timestamp is wall-clock UTC. -/
theorem event_id_C8_amended :
    ∀ (n1 n2 m1 m2 : Nat) (ty1 ty2 : String) (p1 p2 : List (String × String)),
      (NewEvent n1 n2 ty1 p1).timestamp.loc = GoLoc.utc ∧
      (NewEvent n1 n2 ty1 p1).id = Nat.repr n1 ∧
      (n1 ≠ m1 → (NewEvent n1 n2 ty1 p1).id ≠ (NewEvent m1 m2 ty2 p2).id) := by
  intro n1 n2 m1 m2 ty1 ty2 p1 p2
  refine ⟨rfl, rfl, ?_⟩
  intro hne h
  exact hne (nat_repr_inj n1 m1 h)

/-- C8 amended witness: distinct nanosecond readings 5 and 6 yield distinct
ids, and the timestamp location is UTC. -/
theorem event_id_C8_amended_witness :
    (NewEvent 5 5 "a" []).timestamp.loc = GoLoc.utc ∧
    (5 : Nat) ≠ 6 ∧
    (NewEvent 5 5 "a" []).id ≠ (NewEvent 6 6 "b" []).id :=
  ⟨(event_id_C8_amended 5 5 6 6 "a" "b" [] []).1, by decide,
    (event_id_C8_amended 5 5 6 6 "a" "b" [] []).2.2 (by decide)⟩

end DeviceAgent
